import Mathlib

/-!
Shallow embedding of the FMS_Calender server (src/index.js): the time
arithmetic (`toMinutes`), the slot-overlap resolution performed by
POST /api/schedule/slot, and the event mutation protocol of
POST /api/events.  JavaScript numbers that can be NaN are modelled as
`Option Int` (`none` = NaN); JS comparisons on NaN are false, which
`jle`/`jge` reproduce.  Requests carry `Option String` fields (`none` =
absent key); JS truthiness of a string is "present and non-empty".
-/

namespace FMS

/-- JS whitespace (ASCII fragment) as trimmed by `String.prototype.trim`
and skipped by `parseInt`. -/
def isJsSpace (c : Char) : Bool :=
  c = ' ' || c = '\t' || c = '\n' || c = '\r' || c = '\x0b' || c = '\x0c'

/-- Value of a list of decimal digit characters. -/
def digitsVal (ds : List Char) : Nat :=
  ds.foldl (fun n c => n * 10 + (c.toNat - 48)) 0

/-- Embeds `parseInt(x, 10) || 0`: skip leading whitespace, optional
sign, read the leading run of decimal digits; if there is none the JS
result is NaN, and `|| 0` turns it (and `-0`) into `0`. -/
def parseIntOr0 (cs : List Char) : Int :=
  let cs := cs.dropWhile isJsSpace
  match cs with
  | '-' :: rest =>
      let ds := rest.takeWhile Char.isDigit
      if ds.isEmpty then 0 else -(digitsVal ds : Int)
  | '+' :: rest =>
      let ds := rest.takeWhile Char.isDigit
      if ds.isEmpty then 0 else (digitsVal ds : Int)
  | rest =>
      let ds := rest.takeWhile Char.isDigit
      if ds.isEmpty then 0 else (digitsVal ds : Int)

/-- Embeds `str.split(sep)` for a one-character separator: JS split
always yields at least one (possibly empty) piece. -/
def splitOnChar (sep : Char) : List Char → List (List Char)
  | [] => [[]]
  | c :: cs =>
      let r := splitOnChar sep cs
      if c = sep then [] :: r
      else
        match r with
        | [] => [[c]]
        | h :: t => (c :: h) :: t

/-- Embeds `toMinutes` from src/index.js:
`const [h, m] = String(str).split(':').map(x => parseInt(x,10) || 0);
return h*60 + m;`.  When the string has no colon, `m` is `undefined`
and `h*60 + m` is NaN, modelled as `none`. -/
def toMinutesL (cs : List Char) : Option Int :=
  match splitOnChar ':' cs with
  | [] => none
  | [_] => none
  | h :: m :: _ => some (parseIntOr0 h * 60 + parseIntOr0 m)

/-- `toMinutes` on a `String`. -/
def toMinutes (s : String) : Option Int :=
  toMinutesL s.toList

/-- JS `<=` on possibly-NaN numbers: false when either side is NaN. -/
def jle : Option Int → Option Int → Bool
  | some a, some b => decide (a ≤ b)
  | _, _ => false

/-- JS `>=` on possibly-NaN numbers: false when either side is NaN. -/
def jge : Option Int → Option Int → Bool
  | some a, some b => decide (b ≤ a)
  | _, _ => false

/-- Embeds `String.prototype.trim` (ASCII whitespace fragment). -/
def jsTrim (s : String) : String :=
  ⟨((s.toList.dropWhile isJsSpace).reverse.dropWhile isJsSpace).reverse⟩

/-- A weekly schedule entry, as stored in masterSchedule.json. -/
structure Slot where
  day : String
  room : String
  startTime : String
  endTime : String
  className : String
deriving DecidableEq, Repr

/-- The body of POST /api/schedule/slot once past the required-field
check: day/room/startTime/endTime as strings, className possibly absent. -/
structure Proposal where
  day : String
  room : String
  startTime : String
  endTime : String
  className : Option String
deriving DecidableEq, Repr

/-- The filter predicate of the slot route: keep an item when its
(day, room) differs from the proposal's, or when
`eMin <= itS || sMin >= itE` (i.e. the intervals do not overlap);
the code removes exactly the items with `!(eMin <= itS || sMin >= itE)`. -/
def keepSlot (day room : String) (sMin eMin : Option Int) (item : Slot) : Bool :=
  if item.day != day || item.room != room then true
  else jle eMin (toMinutes item.startTime) || jge sMin (toMinutes item.endTime)

/-- The overlap rule `NOT (e1 <= s2 OR s1 >= e2)` exactly as the code
evaluates it (JS comparisons, so NaN never overlaps). -/
def overlapB (s1 e1 s2 e2 : Option Int) : Bool :=
  !(jle e1 s2 || jge s1 e2)

/-- The slot inserted by the route for proposal `p` with trimmed label
`name`. -/
def mkSlot (p : Proposal) (name : String) : Slot :=
  ⟨p.day, p.room, p.startTime, p.endTime, name⟩

/-- The slot-resolve operation of POST /api/schedule/slot: filter out
same-cell overlapping entries, then insert the proposal when its
trimmed label is non-empty. -/
def resolve (schedule : List Slot) (p : Proposal) : List Slot :=
  let sMin := toMinutes p.startTime
  let eMin := toMinutes p.endTime
  let filtered := schedule.filter (keepSlot p.day p.room sMin eMin)
  let trimmedName := jsTrim (p.className.getD "")
  if trimmedName ≠ "" then filtered ++ [mkSlot p trimmedName] else filtered

example : toMinutes "10:00" = some 600 := by decide
example : toMinutes "10" = none := by decide
example : toMinutes ":30" = some 30 := by decide
example : toMinutes "9:5" = some 545 := by decide
example : jsTrim "  X " = "X" := by decide
example : jsTrim "   " = "" := by decide

/-- JS truthiness of a request field: present and non-empty. -/
def truthy : Option String → Bool
  | some s => s != ""
  | none => false

/-- JS `supplied || existing` for string fields: the supplied value
replaces the field exactly when it is present and non-empty. -/
def jsOr : Option String → String → String
  | some s, d => if s != "" then s else d
  | none, d => d

/-- The body of POST /api/schedule/slot before the required-field check. -/
structure SlotReq where
  day : Option String
  room : Option String
  startTime : Option String
  endTime : Option String
  className : Option String
deriving DecidableEq, Repr

/-- Outcome of the slot route: the stored schedule afterwards, whether
the request succeeded (vs the 400 "missing fields" rejection), and
whether a `schedule:update` broadcast was emitted. -/
structure SlotResult where
  schedule : List Slot
  ok : Bool
  broadcast : Bool
deriving DecidableEq, Repr

/-- Embeds the whole POST /api/schedule/slot handler (write assumed to
succeed): reject when day/room/startTime/endTime is missing or empty
(className is NOT checked), otherwise store `resolve` of the current
schedule and broadcast it. -/
def handleSlot (req : SlotReq) (schedule : List Slot) : SlotResult :=
  if !(truthy req.day && truthy req.room && truthy req.startTime && truthy req.endTime) then
    ⟨schedule, false, false⟩
  else
    let p : Proposal :=
      ⟨req.day.getD "", req.room.getD "", req.startTime.getD "", req.endTime.getD "",
        req.className⟩
    ⟨resolve schedule p, true, true⟩

/-- A date-specific event, as stored in events.json. -/
structure Event where
  id : String
  date : String
  room : String
  startTime : String
  endTime : String
  eventName : String
  createdBy : String
deriving DecidableEq, Repr

/-- The body of POST /api/events. -/
structure EventsReq where
  action : Option String
  id : Option String
  date : Option String
  room : Option String
  startTime : Option String
  endTime : Option String
  eventName : Option String
deriving DecidableEq, Repr

/-- Response of the events routes: a 400 with its message, a 404
(only the older DELETE /api/events/:id route emits it), or success. -/
inductive EventsResp where
  | badRequest (msg : String)
  | notFound
  | ok
deriving DecidableEq, Repr

/-- Outcome of an events route: stored collection afterwards, response,
and whether an `events:update` broadcast was emitted. -/
structure EventsResult where
  events : List Event
  resp : EventsResp
  broadcast : Bool
deriving DecidableEq, Repr

/-- Embeds the POST /api/events handler of src/index.js (write assumed
to succeed).  `user` is the authenticated caller's userId (the JWT
payload attached by the auth middleware); `genId` is the id the create
branch generates (`Date.now().toString(36) + '-' + random`), taken
here as an input since it depends on clock and randomness. -/
def handleEvents (req : EventsReq) (user genId : String) (events : List Event) :
    EventsResult :=
  if !truthy req.action then ⟨events, .badRequest "action is required", false⟩
  else
    let a := req.action.getD ""
    if a = "create" then
      if !(truthy req.date && truthy req.room && truthy req.startTime &&
            truthy req.endTime && truthy req.eventName) then
        ⟨events, .badRequest "Missing fields", false⟩
      else
        let ev : Event :=
          ⟨genId, req.date.getD "", req.room.getD "", req.startTime.getD "",
            req.endTime.getD "", req.eventName.getD "", user⟩
        ⟨events ++ [ev], .ok, true⟩
    else if a = "update" then
      if !truthy req.id then ⟨events, .badRequest "id is required", false⟩
      else
        let i := req.id.getD ""
        let updated := events.map (fun e =>
          if e.id != i then e
          else
            { e with
              date := jsOr req.date e.date
              room := jsOr req.room e.room
              startTime := jsOr req.startTime e.startTime
              endTime := jsOr req.endTime e.endTime
              eventName := jsOr req.eventName e.eventName })
        ⟨updated, .ok, true⟩
    else if a = "delete" then
      if !truthy req.id then ⟨events, .badRequest "id is required", false⟩
      else ⟨events.filter (fun e => e.id != req.id.getD ""), .ok, true⟩
    else ⟨events, .badRequest "Unknown action", false⟩

/-- Embeds the DELETE /api/events/:id route of the repository's earlier
version src/index.js.bak_v2: when nothing was removed it answers 404
Not found, writes nothing and broadcasts nothing. -/
def deleteEventV2 (id : String) (events : List Event) : EventsResult :=
  let after := events.filter (fun e => e.id != id)
  if after.length = events.length then ⟨events, .notFound, false⟩
  else ⟨after, .ok, true⟩

/-- The slot route keeps an item exactly when its cell differs from the
proposal's or the intervals do not overlap under the code's rule. -/
theorem keepSlot_iff (day room : String) (sMin eMin : Option Int) (t : Slot) :
    keepSlot day room sMin eMin t = true ↔
      (t.day ≠ day ∨ t.room ≠ room) ∨
        overlapB sMin eMin (toMinutes t.startTime) (toMinutes t.endTime) = false := by
  unfold keepSlot overlapB
  by_cases hd : t.day = day <;> by_cases hr : t.room = room <;> simp [hd, hr]
  cases jle eMin (toMinutes t.startTime) <;> simp

/-- Filtering twice with the same predicate filters once. -/
theorem filter_self_idem {α : Type} (q : α → Bool) (l : List α) :
    (l.filter q).filter q = l.filter q := by
  induction l with
  | nil => rfl
  | cons a t ih => by_cases h : q a <;> simp [List.filter_cons, h, ih]

/-- Resolving with an empty or whitespace label is the pure filter. -/
theorem resolve_of_trim_empty (S : List Slot) (p : Proposal)
    (h : jsTrim (p.className.getD "") = "") :
    resolve S p =
      S.filter (keepSlot p.day p.room (toMinutes p.startTime) (toMinutes p.endTime)) := by
  simp [resolve, h]

/-- Resolving with a non-empty trimmed label filters then appends. -/
theorem resolve_of_trim_nonempty (S : List Slot) (p : Proposal)
    (h : jsTrim (p.className.getD "") ≠ "") :
    resolve S p =
      S.filter (keepSlot p.day p.room (toMinutes p.startTime) (toMinutes p.endTime)) ++
        [mkSlot p (jsTrim (p.className.getD ""))] := by
  simp [resolve, h]

/-- C1: for every schedule S and proposal P whose trimmed label is
non-empty, the resolved schedule contains the newly inserted slot for P,
and every other slot sharing P's (day, room) does not overlap P's
interval under the rule NOT (e1 <= s2 OR s1 >= e2). -/
theorem c1_resolve_inserts_and_excludes (S : List Slot) (p : Proposal)
    (h : jsTrim (p.className.getD "") ≠ "") :
    mkSlot p (jsTrim (p.className.getD "")) ∈ resolve S p ∧
      ∀ t ∈ resolve S p, t ≠ mkSlot p (jsTrim (p.className.getD "")) →
        t.day = p.day → t.room = p.room →
        overlapB (toMinutes p.startTime) (toMinutes p.endTime)
          (toMinutes t.startTime) (toMinutes t.endTime) = false := by
  rw [resolve_of_trim_nonempty S p h]
  constructor
  · exact List.mem_append_right _ (List.mem_singleton.mpr rfl)
  · intro t ht hne hd hr
    rcases List.mem_append.mp ht with ht | ht
    · have hk := (List.mem_filter.mp ht).2
      rcases (keepSlot_iff _ _ _ _ t).mp hk with (h1 | h1) | h1
      · exact absurd hd h1
      · exact absurd hr h1
      · exact h1
    · exact absurd (List.mem_singleton.mp ht) hne

/-- Slot and proposal of the replacement scenario in §8 of the spec. -/
def mathSlot : Slot := ⟨"Mon", "Room1", "09:00", "10:00", "Math"⟩

/-- Overlapping proposal of the replacement scenario in §8 of the spec. -/
def physicsOverlapP : Proposal := ⟨"Mon", "Room1", "09:30", "10:30", some "Physics"⟩

/-- Adjacent (non-overlapping) proposal of the boundary scenario in §8. -/
def physicsAdjacentP : Proposal := ⟨"Mon", "Room1", "10:00", "11:00", some "Physics"⟩

/-- C1 witness: the overlap-replacement scenario of §8. -/
theorem c1_witness :
    jsTrim ((physicsOverlapP.className).getD "") ≠ "" ∧
      mkSlot physicsOverlapP "Physics" ∈ resolve [mathSlot] physicsOverlapP :=
  ⟨by decide, (c1_resolve_inserts_and_excludes [mathSlot] physicsOverlapP (by decide)).1⟩

/-- C7: resolve retains every slot whose (day, room) differs from the
proposal's, and every same-cell slot whose interval does not overlap the
proposal's interval, adjacent boundary slots included. -/
theorem c7_resolve_retains (S : List Slot) (p : Proposal) (t : Slot) (ht : t ∈ S)
    (h : (t.day ≠ p.day ∨ t.room ≠ p.room) ∨
      overlapB (toMinutes p.startTime) (toMinutes p.endTime)
        (toMinutes t.startTime) (toMinutes t.endTime) = false) :
    t ∈ resolve S p := by
  have hk : keepSlot p.day p.room (toMinutes p.startTime) (toMinutes p.endTime) t = true :=
    (keepSlot_iff _ _ _ _ t).mpr h
  by_cases hn : jsTrim (p.className.getD "") = ""
  · rw [resolve_of_trim_empty S p hn]
    exact List.mem_filter.mpr ⟨ht, hk⟩
  · rw [resolve_of_trim_nonempty S p hn]
    exact List.mem_append_left _ (List.mem_filter.mpr ⟨ht, hk⟩)

/-- C7 witness: the adjacent boundary scenario of §8 — a slot ending
exactly when the proposal starts survives resolution. -/
theorem c7_witness :
    (overlapB (toMinutes physicsAdjacentP.startTime) (toMinutes physicsAdjacentP.endTime)
        (toMinutes mathSlot.startTime) (toMinutes mathSlot.endTime) = false) ∧
      mathSlot ∈ resolve [mathSlot] physicsAdjacentP :=
  ⟨by decide,
    c7_resolve_retains [mathSlot] physicsAdjacentP mathSlot (by decide) (Or.inr (by decide))⟩

/-- C8: with a label that trims to empty, resolve inserts nothing — the
result is a sublist of S — and no slot in the proposal's (day, room)
overlapping the proposal's interval remains: a pure deletion. -/
theorem c8_resolve_empty_label (S : List Slot) (p : Proposal)
    (h : jsTrim (p.className.getD "") = "") :
    List.Sublist (resolve S p) S ∧
      ∀ t ∈ resolve S p, t.day = p.day → t.room = p.room →
        overlapB (toMinutes p.startTime) (toMinutes p.endTime)
          (toMinutes t.startTime) (toMinutes t.endTime) = false := by
  rw [resolve_of_trim_empty S p h]
  constructor
  · exact List.filter_sublist S
  · intro t ht hd hr
    have hk := (List.mem_filter.mp ht).2
    rcases (keepSlot_iff _ _ _ _ t).mp hk with (h1 | h1) | h1
    · exact absurd hd h1
    · exact absurd hr h1
    · exact h1

/-- Whitespace-label proposal used to exercise the deletion path. -/
def clearP : Proposal := ⟨"Mon", "Room1", "09:30", "10:30", some "   "⟩

/-- C8 witness: a whitespace label deletes the overlapped Math slot and
inserts nothing. -/
theorem c8_witness :
    jsTrim ((clearP.className).getD "") = "" ∧ List.Sublist (resolve [mathSlot] clearP) [mathSlot] :=
  ⟨by decide, (c8_resolve_empty_label [mathSlot] clearP (by decide)).1⟩

/-- A labelled proposal whose interval is degenerate (10:00–10:00). -/
def degenerateP : Proposal := ⟨"Mon", "R1", "10:00", "10:00", some "X"⟩

/-- C3 counterexample: resolve is NOT idempotent for every proposal.
With label "X" and the degenerate interval 10:00–10:00 the inserted
slot does not overlap itself (eMin <= itS holds), so the second
application keeps it and appends a duplicate: the first result is one
slot, the second is two. -/
theorem c3_counterexample :
    resolve (resolve [] degenerateP) degenerateP ≠ resolve [] degenerateP := by decide

/-- C3 amended: resolve is idempotent whenever the label trims to empty
or the proposal's interval is proper under the code's JS comparisons,
i.e. `eMin <= sMin || sMin >= eMin` evaluates to false (this also holds
when either time parses to NaN).  Only a non-empty label on an interval
with `eMin <= sMin` (both parsed) escapes, duplicating the slot. -/
theorem c3_resolve_idempotent (S : List Slot) (p : Proposal)
    (h : jsTrim (p.className.getD "") = "" ∨
      (jle (toMinutes p.endTime) (toMinutes p.startTime) ||
        jge (toMinutes p.startTime) (toMinutes p.endTime)) = false) :
    resolve (resolve S p) p = resolve S p := by
  by_cases ht : jsTrim (p.className.getD "") = ""
  · rw [resolve_of_trim_empty S p ht, resolve_of_trim_empty _ p ht, filter_self_idem]
  · have hk : keepSlot p.day p.room (toMinutes p.startTime) (toMinutes p.endTime)
        (mkSlot p (jsTrim (p.className.getD ""))) = false := by
      rcases h with h | h
      · exact absurd h ht
      · simp [keepSlot, mkSlot, h]
    rw [resolve_of_trim_nonempty S p ht, resolve_of_trim_nonempty _ p ht,
      List.filter_append, filter_self_idem]
    simp [List.filter_cons, hk]

/-- A proper-interval labelled proposal for the idempotence witness. -/
def mathP : Proposal := ⟨"Mon", "R1", "09:00", "10:00", some "Math"⟩

/-- C3 witness: idempotence at a proper 09:00–10:00 interval. -/
theorem c3_witness :
    (jle (toMinutes mathP.endTime) (toMinutes mathP.startTime) ||
        jge (toMinutes mathP.startTime) (toMinutes mathP.endTime)) = false ∧
      resolve (resolve [] mathP) mathP = resolve [] mathP :=
  ⟨by decide, c3_resolve_idempotent [] mathP (Or.inr (by decide))⟩

/-- `split` never produces an empty list of pieces. -/
theorem splitOnChar_ne_nil (sep : Char) (l : List Char) : splitOnChar sep l ≠ [] := by
  induction l with
  | nil => simp [splitOnChar]
  | cons c cs ih =>
    simp only [splitOnChar]
    by_cases h : c = sep
    · simp [h]
    · simp only [if_neg h]
      cases splitOnChar sep cs with
      | nil => simp
      | cons a t => simp

/-- A separator occurs in the list exactly when splitting yields at
least two pieces. -/
theorem mem_iff_two_le_splitOnChar (sep : Char) (l : List Char) :
    sep ∈ l ↔ 2 ≤ (splitOnChar sep l).length := by
  induction l with
  | nil => simp [splitOnChar]
  | cons c cs ih =>
    simp only [splitOnChar, List.mem_cons]
    by_cases h : c = sep
    · have hpos : 0 < (splitOnChar sep cs).length :=
        List.length_pos.mpr (splitOnChar_ne_nil sep cs)
      simp only [if_pos h, List.length_cons]
      constructor
      · intro _; omega
      · intro _; exact Or.inl h.symm
    · simp only [if_neg h]
      cases hr : splitOnChar sep cs with
      | nil => exact absurd hr (splitOnChar_ne_nil sep cs)
      | cons a t =>
        rw [hr] at ih
        have hcs : ¬ sep = c := fun hsc => h hsc.symm
        simp only [List.length_cons] at ih ⊢
        constructor
        · intro hmem
          rcases hmem with hmem | hmem
          · exact absurd hmem hcs
          · exact ih.mp hmem
        · intro hlen
          exact Or.inr (ih.mpr hlen)

/-- Modelled from the spec's words (§4.1): "parses HH:MM; each
component defaults to 0 if missing or non-numeric; result =
hours*60 + minutes" — a total integer-valued parse, for comparison
with the code's `toMinutes`. -/
def toMinutesSpec (s : String) : Int :=
  let parts := splitOnChar ':' s.toList
  (parts.head?.map parseIntOr0).getD 0 * 60 + ((parts.drop 1).head?.map parseIntOr0).getD 0

/-- C4 counterexample: on a colon-less string the code's `toMinutes`
does not return the integer `hours*60 + minutes` with the minutes
component defaulted to 0: `toMinutes "10"` computes `10*60 + undefined`,
i.e. NaN (modelled `none`), where the claim requires the integer 600. -/
theorem c4_counterexample :
    toMinutes "10" = none ∧ toMinutesSpec "10" = 600 := by decide

/-- C4 amended: toMinutes never raises and agrees with the spec's
"defaults to 0" formula `hours*60 + minutes` exactly when the input
contains a colon; with no colon the minutes component is `undefined`,
so the result is NaN (modelled `none`), not an integer. -/
theorem c4_toMinutes_eq_spec_iff_colon (s : String) :
    toMinutes s = if ':' ∈ s.toList then some (toMinutesSpec s) else none := by
  unfold toMinutes toMinutesL toMinutesSpec
  cases hr : splitOnChar ':' s.toList with
  | nil => exact absurd hr (splitOnChar_ne_nil ':' s.toList)
  | cons h t =>
    cases t with
    | nil =>
      have hmem : ¬ (':' ∈ s.toList) := by
        rw [mem_iff_two_le_splitOnChar ':' s.toList, hr]; simp
      have hmem2 : ¬ (':' ∈ s.data) := hmem
      simp [hr, hmem2]
    | cons m t2 =>
      have hmem : ':' ∈ s.toList := by
        rw [mem_iff_two_le_splitOnChar ':' s.toList, hr]
        simp only [List.length_cons]; omega
      have hmem2 : ':' ∈ s.data := hmem
      simp [hr, hmem2]

/-- C10: POST /api/schedule/slot with className absent entirely is not
rejected — className is not among the required fields — and behaves
exactly like an empty label: the request succeeds and acts as a pure
deletion (the stored schedule is a sublist of the old one). -/
theorem c10_slot_optional_className (S : List Slot) (d r st et : String)
    (hd : d ≠ "") (hr : r ≠ "") (hst : st ≠ "") (het : et ≠ "") :
    (handleSlot ⟨some d, some r, some st, some et, none⟩ S).ok = true ∧
      handleSlot ⟨some d, some r, some st, some et, none⟩ S =
        handleSlot ⟨some d, some r, some st, some et, some ""⟩ S ∧
      List.Sublist (handleSlot ⟨some d, some r, some st, some et, none⟩ S).schedule S := by
  have hres : ∀ (cn : Option String), cn.getD "" = "" →
      handleSlot ⟨some d, some r, some st, some et, cn⟩ S =
        ⟨S.filter (keepSlot d r (toMinutes st) (toMinutes et)), true, true⟩ := by
    intro cn hcn
    have hempty : jsTrim (cn.getD "") = "" := by rw [hcn]; decide
    simp [handleSlot, truthy, hd, hr, hst, het, resolve, hempty]
  refine ⟨?_, ?_, ?_⟩
  · rw [hres none rfl]
  · rw [hres none rfl, hres (some "") rfl]
  · rw [hres none rfl]
    exact List.filter_sublist S

/-- C10 witness: omitting className on a valid request succeeds. -/
theorem c10_witness :
    ("Mon" : String) ≠ "" ∧
      (handleSlot ⟨some "Mon", some "Room1", some "09:30", some "10:30", none⟩
        [mathSlot]).ok = true :=
  ⟨by decide,
    (c10_slot_optional_className [mathSlot] "Mon" "Room1" "09:30" "10:30"
      (by decide) (by decide) (by decide) (by decide)).1⟩

/-- A stored event used by the concrete events scenarios. -/
def seminarEvent : Event := ⟨"a1", "2024-05-01", "R1", "10:00", "11:00", "Seminar", "admin1"⟩

/-- C2: the current POST /api/events delete branch filters by id with no
not-found check, so deleting the nonexistent id "zzz" from a collection
holding only "a1" leaves the collection unchanged but reports success
and broadcasts `events:update` — where the claim (and the repository's
earlier DELETE /api/events/:id route, second conjunct) requires a 404
distinct from success and no broadcast. -/
theorem c2_delete_missing_id_divergence :
    handleEvents ⟨some "delete", some "zzz", none, none, none, none, none⟩ "admin1" "g0"
        [seminarEvent] = ⟨[seminarEvent], .ok, true⟩ ∧
      deleteEventV2 "zzz" [seminarEvent] = ⟨[seminarEvent], .notFound, false⟩ := by
  exact ⟨by decide, by decide⟩

/-- `find?` skips a prefix in which nothing satisfies the predicate. -/
theorem find_skip_append {α : Type} {p : α → Bool} {l₁ l₂ : List α}
    (h : ∀ x ∈ l₁, p x = false) : (l₁ ++ l₂).find? p = l₂.find? p := by
  induction l₁ with
  | nil => rfl
  | cons a t ih =>
    rw [List.cons_append, List.find?_cons_of_neg]
    · exact ih fun x hx => h x (List.mem_cons_of_mem a hx)
    · simp [h a (List.mem_cons_self a t)]

/-- A stored event whose id collides with the generated one in the C5
counterexample. -/
def seminarClash : Event := ⟨"abc-123", "2024-01-01", "R2", "09:00", "10:00", "Old", "admin2"⟩

/-- C5 counterexample: the create branch performs no uniqueness check on
the generated id, so when the id it generates ("abc-123", a function of
clock and randomness) already occurs in the stored collection, the new
event's id is NOT distinct from every id already present. -/
theorem c5_counterexample :
    ("abc-123" ∈ [seminarClash].map Event.id) ∧
      (handleEvents
          ⟨some "create", none, some "2024-05-01", some "R1", some "10:00", some "11:00",
            some "Seminar"⟩ "admin1" "abc-123" [seminarClash]).events =
        [seminarClash, ⟨"abc-123", "2024-05-01", "R1", "10:00", "11:00", "Seminar", "admin1"⟩] := by
  exact ⟨by decide, by decide⟩

/-- C5 amended: provided the generated id does not already occur in E
(which the code does not check), create appends exactly one event
carrying the submitted fields with createdBy set to the caller, the
size grows by one, and lookup by the new id finds the new event. -/
theorem c5_create_appends_fresh (E : List Event) (user gid d r st et en : String)
    (hd : d ≠ "") (hr : r ≠ "") (hst : st ≠ "") (het : et ≠ "") (hen : en ≠ "")
    (hfresh : ∀ e ∈ E, e.id ≠ gid) :
    (handleEvents ⟨some "create", none, some d, some r, some st, some et, some en⟩
        user gid E).events = E ++ [⟨gid, d, r, st, et, en, user⟩] ∧
      (handleEvents ⟨some "create", none, some d, some r, some st, some et, some en⟩
        user gid E).events.length = E.length + 1 ∧
      (handleEvents ⟨some "create", none, some d, some r, some st, some et, some en⟩
        user gid E).events.find? (fun e => e.id == gid) =
        some ⟨gid, d, r, st, et, en, user⟩ ∧
      (handleEvents ⟨some "create", none, some d, some r, some st, some et, some en⟩
        user gid E).resp = .ok := by
  have hev : (handleEvents ⟨some "create", none, some d, some r, some st, some et, some en⟩
      user gid E).events = E ++ [⟨gid, d, r, st, et, en, user⟩] := by
    simp [handleEvents, truthy, hd, hr, hst, het, hen]
  refine ⟨hev, ?_, ?_, ?_⟩
  · rw [hev]; simp
  · rw [hev, find_skip_append]
    · simp [List.find?_cons]
    · intro x hx
      simp [hfresh x hx]
  · simp [handleEvents, truthy, hd, hr, hst, het, hen]

/-- C5 witness: creating into the empty collection with a fresh id. -/
theorem c5_witness :
    (("Seminar" : String) ≠ "" ∧ ∀ e ∈ ([] : List Event), e.id ≠ "m1-42") ∧
      (handleEvents
          ⟨some "create", none, some "2024-05-01", some "R1", some "10:00", some "11:00",
            some "Seminar"⟩ "admin1" "m1-42" []).events =
        [⟨"m1-42", "2024-05-01", "R1", "10:00", "11:00", "Seminar", "admin1"⟩] :=
  ⟨⟨by decide, by simp⟩,
    (c5_create_appends_fresh [] "admin1" "m1-42" "2024-05-01" "R1" "10:00" "11:00" "Seminar"
      (by decide) (by decide) (by decide) (by decide) (by decide) (by simp)).1⟩

/-- C6: an update supplying only an existing id and a non-empty
eventName rewrites exactly the eventName of the matching event — its
id, createdBy, date, room, startTime and endTime are kept by the
record update — and maps every other event to itself. -/
theorem c6_update_name_frame (E : List Event) (i X user gid : String)
    (hi : i ≠ "") (hX : X ≠ "") (_hmem : ∃ e ∈ E, e.id = i) :
    (handleEvents ⟨some "update", some i, none, none, none, none, some X⟩ user gid E).events =
        E.map (fun e => if e.id = i then { e with eventName := X } else e) ∧
      (handleEvents ⟨some "update", some i, none, none, none, none, some X⟩ user gid E).resp =
        .ok := by
  constructor
  · simp [handleEvents, truthy, hi, hX, jsOr]
  · simp [handleEvents, truthy, hi]

/-- C6 witness: renaming the stored seminar event. -/
theorem c6_witness :
    (("a1" : String) ≠ "" ∧ ("Workshop" : String) ≠ "" ∧ ∃ e ∈ [seminarEvent], e.id = "a1") ∧
      (handleEvents ⟨some "update", some "a1", none, none, none, none, some "Workshop"⟩
          "admin2" "g0" [seminarEvent]).events =
        [seminarEvent].map (fun e => if e.id = "a1" then { e with eventName := "Workshop" } else e) :=
  ⟨⟨by decide, by decide, ⟨seminarEvent, by simp, by decide⟩⟩,
    (c6_update_name_frame [seminarEvent] "a1" "Workshop" "admin2" "g0"
      (by decide) (by decide) ⟨seminarEvent, by simp, by decide⟩).1⟩

/-- C9: a mutation request whose action is missing or outside
{create, update, delete}, or a create missing a required field, is
answered with a 400 before any state mutation: the stored collection is
unchanged, no broadcast occurs, and the response is not success. -/
theorem c9_events_rejects_invalid (req : EventsReq) (user gid : String) (E : List Event)
    (h : truthy req.action = false
       ∨ (∃ a, req.action = some a ∧ a ≠ "create" ∧ a ≠ "update" ∧ a ≠ "delete")
       ∨ (req.action = some "create" ∧
           (truthy req.date && truthy req.room && truthy req.startTime &&
             truthy req.endTime && truthy req.eventName) = false)) :
    (handleEvents req user gid E).events = E ∧
      (handleEvents req user gid E).broadcast = false ∧
      (handleEvents req user gid E).resp ≠ .ok := by
  have key : ∃ m, handleEvents req user gid E = ⟨E, .badRequest m, false⟩ := by
    rcases h with h | ⟨a, ha, h1, h2, h3⟩ | ⟨ha, h⟩
    · exact ⟨"action is required", by simp [handleEvents, h]⟩
    · by_cases he : a = ""
      · exact ⟨"action is required", by simp [handleEvents, ha, he, truthy]⟩
      · exact ⟨"Unknown action", by simp [handleEvents, ha, truthy, he, h1, h2, h3]⟩
    · have hta : truthy req.action = true := by rw [ha]; decide
      have hga : req.action.getD "" = "create" := by rw [ha]; rfl
      exact ⟨"Missing fields", by simp [handleEvents, hta, hga, h]⟩
  rcases key with ⟨m, hm⟩
  rw [hm]
  exact ⟨rfl, rfl, by simp⟩

/-- C9 witness: the unknown action "noop" is rejected without touching
the stored collection. -/
theorem c9_witness :
    (∃ a, (some "noop" : Option String) = some a ∧
        a ≠ "create" ∧ a ≠ "update" ∧ a ≠ "delete") ∧
      (handleEvents ⟨some "noop", none, none, none, none, none, none⟩ "admin1" "g0"
        [seminarEvent]).events = [seminarEvent] :=
  ⟨⟨"noop", rfl, by decide, by decide, by decide⟩,
    (c9_events_rejects_invalid ⟨some "noop", none, none, none, none, none, none⟩ "admin1" "g0"
      [seminarEvent]
      (Or.inr (Or.inl ⟨"noop", rfl, by decide, by decide, by decide⟩))).1⟩

end FMS
